import Mathlib

/-!
# Verification of the stock-ai deep-research pipeline

Shallow embedding of the research subsystem of the `stock-ai` repository:

* `src/tools/search_sources.py`  — provider search (Finnhub, DuckDuckGo, SEC EDGAR)
* `src/tools/content_fetcher.py` — parallel content fetch with degradation
* `src/tools/rag_pipeline.py`    — chunking, citation map, LLM context window
* `src/tools/reranker.py`        — three-tier reranking
* `src/tools/cache.py`           — TTL cache (modelled with `_redis = None`,
  i.e. the in-memory fallback branch; the Redis branch has the same TTL
  semantics at this level)
* `src/tools/researcher.py`      — `deep_research_async` / `stream_research`

External effects (HTTP responses, the DDG library, the LLM, the
cross-encoder model, wall-clock time) are oracles collected in an `Env`
record; each run of the pipeline is a pure function of the oracle, so two
invocations "given the same provider/fetch/LLM responses" are two
applications of the same function to the same `Env`.  Floating-point
scores are modelled as exact rationals, and Python's `round(x, n)` —
irrelevant to every claim — is absorbed into the oracle values.
-/

namespace StockAI

/-! ## String helpers (kernel-reducible models of the Python string ops) -/

/-- Test `listHasPre n h` : the char list `n` is an initial segment of `h`
(model of Python `str.startswith` on the underlying characters). -/
def listHasPre : List Char → List Char → Bool
  | [], _ => true
  | _ :: _, [] => false
  | a :: as, b :: bs => a == b && listHasPre as bs

/-- Test `subAt n h` : `n` occurs somewhere in `h` as a contiguous segment. -/
def subAt : List Char → List Char → Bool
  | n, [] => listHasPre n []
  | n, h :: t => listHasPre n (h :: t) || subAt n t

/-- Model of Python `needle in hay` for strings (substring test). -/
def substrB (needle hay : String) : Bool :=
  subAt needle.toList hay.toList

/-- Model of Python `str.startswith`. -/
def startsWithB (s pre : String) : Bool :=
  listHasPre pre.toList s.toList

/-- Worker for `splitWs`: accumulates the current word (reversed). -/
def splitWsAux : List Char → List Char → List (List Char)
  | [], acc => if acc.isEmpty then [] else [acc.reverse]
  | c :: cs, acc =>
    if c.isWhitespace then
      if acc.isEmpty then splitWsAux cs [] else acc.reverse :: splitWsAux cs []
    else splitWsAux cs (c :: acc)

/-- Model of Python `str.split()` (no argument): split on whitespace runs,
dropping empty pieces. -/
def splitWs (s : String) : List String :=
  (splitWsAux s.toList []).map String.mk

/-- Model of Python `str.strip()`: drop leading and trailing whitespace. -/
def stripStr (s : String) : String :=
  String.mk (((s.toList.dropWhile Char.isWhitespace).reverse.dropWhile
    Char.isWhitespace).reverse)

/-- Model of Python `str.lower()`. -/
def lowerStr (s : String) : String :=
  String.mk (s.toList.map Char.toLower)

/-- Model of Python slicing `s[:n]` (first `n` characters). -/
def takeStr (s : String) (n : Nat) : String :=
  String.mk (s.toList.take n)

/-! ## Data model

A provider "source" is a Python dict; the keys the pipeline reads are
modelled as `Option String` fields (`none` = key absent), matching the
pervasive `source.get(key, default)` accesses. -/

/-- A search-result / article dict flowing through the pipeline
(`search_sources.py` producers, enriched by `content_fetcher.py`). -/
structure RawSource where
  title : Option String := none
  url : Option String := none
  snippet : Option String := none
  content : Option String := none
  source : Option String := none
  timestamp : Option String := none
  fetch_status : Option String := none
deriving DecidableEq

/-- A RAG chunk as built by `build_chunks_from_sources`
(`rag_pipeline.py:36-78`). -/
structure Chunk where
  text : String
  source_id : Nat
  source_url : String := ""
  source_title : String := ""
  source_type : String := "unknown"
  timestamp : String := ""
  rerank_score : ℚ := 0
deriving DecidableEq

/-- One citation-map entry (`build_citation_map`, `rag_pipeline.py:81-106`). -/
structure Citation where
  url : String
  title : String
  source_type : String
  relevance_score : ℚ
deriving DecidableEq

/-- One catalyst object of the synthesis JSON schema
(`researcher.py` synthesis prompt). -/
structure Catalyst where
  catalyst : String
  confidence : ℚ
  source_ids : List Nat
  impact : String
deriving DecidableEq

/-- The fields of a successfully `json.loads`-parsed LLM response
(the JSON schema demanded by `SYNTHESIS_SYSTEM`, `researcher.py:53-84`). -/
structure ParsedResult where
  synthesis : String
  catalysts : List Catalyst
  key_metrics : List (String × String)
  risk_factors : List String
  sentiment : String
  confidence_overall : ℚ
deriving DecidableEq

/-- Outcome of `llm_client.chat_completion` + `json.loads`
(`researcher.py:157-169`): a raised exception, malformed JSON, or a
parsed result. -/
inductive LlmOutcome where
  | exn
  | jsonError
  | ok (r : ParsedResult)
deriving DecidableEq

/-- The final research document (`ResearchDocument`): the dict returned by
`_step_synthesize` / `_fallback` (`researcher.py:146-229`). -/
structure ResearchDocument where
  synthesis : String
  catalysts : List Catalyst
  key_metrics : List (String × String)
  risk_factors : List String
  sentiment : String
  confidence_overall : ℚ
  sources : List (String × Citation)
  headlines : List String
  ticker : String
  exchange : String
  research_timestamp : String
  pipeline : String
deriving DecidableEq

/-- Per-provider counts (`_step_collect_sources` stats, `researcher.py:118-123`). -/
structure Stats where
  finnhub : Nat
  duckduckgo : Nat
  sec_edgar : Nat
  total : Nat
deriving DecidableEq

/-! ## Oracle environment

Raw items the provider HTTP/library calls hand back, before the
repository's own formatting code shapes them. -/

/-- One Finnhub `company-news` item (`search_sources.py:143-156`). -/
structure FinnhubItem where
  headline : String := ""
  url : String := ""
  summary : String := ""
  datetime : String := ""
deriving DecidableEq

/-- One raw DuckDuckGo result (`search_sources.py:57-67`). -/
structure DdgRaw where
  title : String := ""
  href : String := ""
  body : String := ""
deriving DecidableEq

/-- One EDGAR full-text-search hit (`search_sources.py:193-211`). -/
structure EdgarHit where
  form_type : String := ""
  entity_name : Option String := none
  file_date : String := ""
  idRaw : String := ""
deriving DecidableEq

/-- The oracle for everything outside the repository's own code: provider
responses, fetcher results, reranker backends, the LLM, and the clock
strings.  `timedOut` models the 25-second aggregate deadline of
`_step_collect_sources` firing (`researcher.py:107-114`). -/
structure Env where
  finnhubApiKey : String := ""
  finnhubItems : List FinnhubItem := []
  ddgSearch : String → Nat → List DdgRaw := fun _ _ => []
  edgarHits : List EdgarHit := []
  timedOut : Bool := false
  /-- Result of `fetch_single` for a URL: the direct-then-Jina chain

  (`content_fetcher.py:70-83`); `none` = both attempts failed. -/
  fetch : String → Option String := fun _ => none
  cohereApiKey : String := ""
  /-- The `response.results` of the Cohere rerank call as (index, score)

  pairs; `none` = the call raised (`reranker.py:83-114`). -/
  cohere : Option (List (Nat × ℚ)) := none
  /-- The `model.predict` scores, positionally aligned with the chunks;

  `none` = model unavailable or inference raised (`reranker.py:117-140`). -/
  crossEncoder : Option (List ℚ) := none
  /-- The `chat_completion` + `json.loads` outcome as a function of the user

  prompt (`researcher.py:157-163`). -/
  llm : String → LlmOutcome := fun _ => LlmOutcome.exn
  /-- The value `str(datetime.now().year)` (`search_sources.py:98`, `reranker.py:76`). -/
  year : String := ""
  /-- The value `datetime.now().isoformat()` (`researcher.py:178,227`). -/
  nowIso : String := ""

/-! ## `search_sources.py` -/

/-- Model of `search_duckduckgo` (`search_sources.py:25-69`): the library call is
the oracle; the repository's code formats each raw result, keeping only
those with a truthy `href`.  Per-query timeouts and library errors are
oracle-level (an empty result list). -/
def searchDuckduckgo (env : Env) (query : String) (maxResults : Nat) :
    List RawSource :=
  (env.ddgSearch query maxResults).filterMap fun r =>
    if r.href = "" then none
    else some
      { title := some r.title
        url := some r.href
        snippet := some r.body
        source := some "duckduckgo"
        content := some r.body }

/-- The dedup-by-URL loop of `multi_query_search`
(`search_sources.py:79-87`): keep a result iff its `url` is truthy and
not yet seen. -/
def dedupByUrl : List RawSource → List String → List RawSource
  | [], _ => []
  | x :: xs, seen =>
    let u := x.url.getD ""
    if u ≠ "" ∧ u ∉ seen then x :: dedupByUrl xs (u :: seen)
    else dedupByUrl xs seen

/-- The concatenation of all per-query DDG result lists, in query order
(`all_lists` flattened, `search_sources.py:76-83`). -/
def joinedDdg (env : Env) (queries : List String) (resultsPerQuery : Nat) :
    List RawSource :=
  (queries.map fun q => searchDuckduckgo env q resultsPerQuery).flatten

/-- Model of `multi_query_search` (`search_sources.py:72-90`). -/
def multiQuerySearch (env : Env) (queries : List String)
    (resultsPerQuery : Nat) : List RawSource :=
  dedupByUrl (joinedDdg env queries resultsPerQuery) []

/-- Model of `decompose_queries` (`search_sources.py:93-104`); `year` is
`datetime.now().year` rendered into the f-string. -/
def decomposeQueries (year ticker _exchange companyName : String) :
    List String :=
  let name := if companyName = "" then ticker else companyName
  [ticker ++ " stock news " ++ year,
   name ++ " earnings revenue forecast",
   ticker ++ " price target analyst upgrade downgrade"]

/-- Model of `fetch_finnhub_news` (`search_sources.py:111-163`): empty for a
missing key or non-US exchange; otherwise the first 8 items with a
truthy stripped headline, formatted.  HTTP-level failure (`status != 200`
or an exception) is oracle-level: an empty `finnhubItems`. -/
def fetchFinnhubNews (env : Env) (_ticker exchange apiKey : String) :
    List RawSource :=
  if apiKey = "" ∨ (exchange ≠ "NYSE" ∧ exchange ≠ "NASDAQ") then []
  else
    (env.finnhubItems.take 8).filterMap fun item =>
      let headline := stripStr item.headline
      if headline = "" then none
      else some
        { title := some headline
          url := some item.url
          snippet := some item.summary
          content := some item.summary
          source := some "finnhub"
          timestamp := some item.datetime }

/-- Model of `fetch_sec_edgar` (`search_sources.py:170-218`): the first
`maxResults` hits formatted into filing sources.  HTTP failure is
oracle-level (empty `edgarHits`). -/
def fetchSecEdgar (env : Env) (ticker : String) (maxResults : Nat) :
    List RawSource :=
  (env.edgarHits.take maxResults).map fun hit =>
    let accession := hit.idRaw.replace ":" "-"
    let entity := hit.entity_name.getD ticker
    let snip := hit.form_type ++ " filing by " ++ entity ++ " on "
      ++ hit.file_date
    { title := some (entity ++ " SEC Filing: " ++ hit.form_type ++ " ("
        ++ hit.file_date ++ ")")
      url := some ("https://www.sec.gov/Archives/edgar/data/" ++ accession
        ++ ".txt")
      snippet := some snip
      content := some snip
      source := some "sec_edgar"
      timestamp := some hit.file_date }

/-! ## `content_fetcher.py` -/

/-- Model of `fetch_single` (`content_fetcher.py:70-83`): `None` for a non-`http`
URL, else the direct-then-Jina chain, which is the `fetch` oracle. -/
def fetchSingle (env : Env) (url : String) : Option String :=
  if url = "" ∨ ¬ startsWithB url "http" then none
  else env.fetch url

/-- Model of `bounded_fetch` (`content_fetcher.py:100-123`).  Note: the `no_url`
branch returns the source having set only `fetch_status` — `content` is
left exactly as it came in (possibly absent). -/
def boundedFetch (env : Env) (s : RawSource) : RawSource :=
  let url := s.url.getD ""
  if url = "" then { s with fetch_status := some "no_url" }
  else
    let existing := s.content.getD ""
    if 200 < existing.length then { s with fetch_status := some "pre_filled" }
    else
      match fetchSingle env url with
      | some c =>
        if c ≠ "" then { s with content := some c, fetch_status := some "success" }
        else
          let snippet := s.snippet.getD ""
          { s with content := some snippet,
                   fetch_status := some (if snippet ≠ "" then "snippet_only" else "failed") }
      | none =>
        let snippet := s.snippet.getD ""
        { s with content := some snippet,
                 fetch_status := some (if snippet ≠ "" then "snippet_only" else "failed") }

/-- Model of `fetch_all_parallel` (`content_fetcher.py:86-143`): every source is
processed independently (`asyncio.gather` over `bounded_fetch`), order
preserved. -/
def fetchAllParallel (env : Env) (sources : List RawSource) :
    List RawSource :=
  sources.map (boundedFetch env)

/-! ## `rag_pipeline.py` -/

/-- Model of `chunk_text` (`rag_pipeline.py:10-33`).  The Python loop
`for i in range(0, len(words), step)` runs `⌈len(words)/step⌉` times with
`i = j*step`; each iteration takes `words[i : i+chunk_size]` and keeps it
iff it holds at least 40 words. -/
def chunkText (text : String) (chunkSize overlap : Nat) : List String :=
  let words := splitWs text
  let step := max (chunkSize - overlap) 1
  (List.range ((words.length + step - 1) / step)).filterMap fun j =>
    let chunkWords := (words.drop (j * step)).take chunkSize
    if 40 ≤ chunkWords.length then some (" ".intercalate chunkWords)
    else none

/-- The loop of `build_chunks_from_sources` (`rag_pipeline.py:55-78`);
`sid` is the running 1-based source id, incremented only for sources that
contribute chunks (`continue` skips the increment). -/
def buildChunksAux : List RawSource → Nat → List Chunk
  | [], _ => []
  | s :: rest, sid =>
    let content := stripStr (s.content.getD "")
    if content = "" ∨ content.length < 100 then buildChunksAux rest sid
    else
      ((chunkText content 400 80).map fun ch =>
        { text := ch
          source_id := sid
          source_url := s.url.getD ""
          source_title := s.title.getD ""
          source_type := s.source.getD "unknown"
          timestamp := s.timestamp.getD ""
          rerank_score := 0 }) ++ buildChunksAux rest (sid + 1)

/-- Model of `build_chunks_from_sources` (`rag_pipeline.py:36-78`). -/
def buildChunksFromSources (sources : List RawSource) : List Chunk :=
  buildChunksAux sources 1

/-- The loop of `build_citation_map` (`rag_pipeline.py:92-106`): an
insertion-ordered dict, modelled as an association list keyed by
`str(source_id)`.  (`round(score, 3)` is absorbed into the score.) -/
def buildCitationMapAux : List Chunk → List Nat → List (String × Citation)
  | [], _ => []
  | c :: rest, seen =>
    if c.source_id ∈ seen then buildCitationMapAux rest seen
    else
      (toString c.source_id,
        { url := c.source_url
          title := c.source_title
          source_type := c.source_type
          relevance_score := c.rerank_score }) ::
        buildCitationMapAux rest (c.source_id :: seen)

/-- Model of `build_citation_map` (`rag_pipeline.py:81-106`). -/
def buildCitationMap (topChunks : List Chunk) : List (String × Citation) :=
  buildCitationMapAux topChunks []

/-- One `[source_id] text[:600]` block (`rag_pipeline.py:125`). -/
def blockOf (c : Chunk) : String :=
  "[" ++ toString c.source_id ++ "] " ++ takeStr c.text 600

/-- The accumulation loop of `build_llm_context`
(`rag_pipeline.py:121-129`): `total` is the running sum of block lengths;
a block whose addition would push `total` past `maxChars` stops the loop
(all later chunks dropped). -/
def includedBlocks : List Chunk → Nat → Nat → List String
  | [], _, _ => []
  | c :: rest, maxChars, total =>
    let block := blockOf c
    if maxChars < total + block.length then []
    else block :: includedBlocks rest maxChars (total + block.length)

/-- Python `"\n\n".join(blocks)`. -/
def joinBlocks : List String → String
  | [] => ""
  | [b] => b
  | b :: bs => b ++ "\n\n" ++ joinBlocks bs

/-- Model of `build_llm_context` (`rag_pipeline.py:109-131`). -/
def buildLlmContext (topChunks : List Chunk) (maxChars : Nat) : String :=
  joinBlocks (includedBlocks topChunks maxChars 0)

/-! ## `reranker.py` -/

/-- The 19 financial keywords of `_keyword_score` (`reranker.py:66-70`). -/
def finKeywords : List String :=
  ["earnings", "revenue", "profit", "loss", "growth", "acquisition",
   "merger", "partnership", "guidance", "forecast", "dividend", "buyback",
   "ipo", "sec", "filing", "analyst", "upgrade", "downgrade", "target price"]

/-- Model of `_keyword_score` (`reranker.py:47-80`): ticker boost 0.35, query-term
overlap up to 0.4, financial keywords up to 0.2, recency 0.05, clamped at
1.0 from above. -/
def keywordScore (year chunkText query ticker : String) : ℚ :=
  let textLower := lowerStr chunkText
  let queryTerms := splitWs (lowerStr query)
  let tickerLower := lowerStr ticker
  let s1 : ℚ := if substrB tickerLower textLower then 35/100 else 0
  let matched := (queryTerms.filter fun term => substrB term textLower).length
  let s2 : ℚ := min ((matched : ℚ) / (max queryTerms.length 1 : Nat) * (4/10)) (4/10)
  let finMatches := (finKeywords.filter fun kw => substrB kw textLower).length
  let s3 : ℚ := min ((finMatches : ℚ) * (5/100)) (2/10)
  let s4 : ℚ := if substrB year chunkText then 5/100 else 0
  min (s1 + s2 + s3 + s4) 1

/-- Stable descending insertion: the new element is placed before the
first element of less-or-equal score.  `sortByScoreDesc` folds from the
right, so each input element is inserted into the sorted list of the
elements after it and lands in front of equal-scored ones — equal-score
elements keep their input order, extensionally matching the Python
stable `sorted(chunks, key=lambda x: x["rerank_score"], reverse=True)`. -/
def insertDesc (x : Chunk) : List Chunk → List Chunk
  | [] => [x]
  | y :: ys =>
    if y.rerank_score ≤ x.rerank_score then x :: y :: ys
    else y :: insertDesc x ys

/-- Stable descending sort by `rerank_score` (model of
`sorted(..., reverse=True)`, `reranker.py:134,184`). -/
def sortByScoreDesc : List Chunk → List Chunk
  | [] => []
  | x :: xs => insertDesc x (sortByScoreDesc xs)

/-- Model of `_rerank_with_cohere` (`reranker.py:83-114`): `None` without an API
key or on an exception; otherwise one chunk per API hit, score taken from
the hit.  An out-of-range `hit.index` raises `IndexError`, caught by the
enclosing `except` — hence the `Option`-monadic indexing.  (`top_n` is
passed to the API; the code does not itself truncate or sort.) -/
def rerankWithCohere (env : Env) (chunks : List Chunk) (_topK : Nat) :
    Option (List Chunk) :=
  if env.cohereApiKey = "" then none
  else
    match env.cohere with
    | none => none
    | some hits =>
      hits.mapM fun hit => (chunks[hit.1]?).map fun c =>
        { c with rerank_score := hit.2 }

/-- Model of `_rerank_with_cross_encoder` (`reranker.py:117-140`): scores are
assigned positionally by `zip` (chunks beyond the score list keep their
previous 0.0), then the whole list is sorted descending and truncated.
The raw `model.predict` outputs are stored without any clamping. -/
def rerankWithCrossEncoder (env : Env) (chunks : List Chunk) (topK : Nat) :
    Option (List Chunk) :=
  match env.crossEncoder with
  | none => none
  | some scores =>
    let scored := ((chunks.zip scores).map fun p =>
        { p.1 with rerank_score := p.2 }) ++ chunks.drop scores.length
    some ((sortByScoreDesc scored).take topK)

/-- Model of `rerank_chunks` (`reranker.py:143-185`).  Each tier's result is used
only if truthy (`if result:`), so `None` and `[]` both fall through. -/
def rerankChunks (env : Env) (chunks : List Chunk) (query ticker : String)
    (topK : Nat) : List Chunk :=
  if chunks = [] then []
  else
    match rerankWithCohere env chunks topK with
    | some (c :: cs) => c :: cs
    | _ =>
      match rerankWithCrossEncoder env chunks topK with
      | some (c :: cs) => c :: cs
      | _ =>
        (sortByScoreDesc (chunks.map fun c =>
          { c with rerank_score := keywordScore env.year c.text query ticker })).take topK

/-! ## `cache.py`

`CacheLayer` is modelled in its in-memory-fallback state
(`self._redis = None`): `self._memory` maps the prefixed key to
`(value, expires_at)`.  Wall-clock time is seconds as `Nat`;
`datetime.now()` is the `t` argument of each operation. -/

/-- The value `ttl_minutes * 60` for the global instance
(`CacheLayer(ttl_minutes=30, ...)`, `cache.py:19-20,95`). -/
def ttlSeconds : Nat := 30 * 60

/-- The `self._memory` dict. -/
def Cache : Type := String → Option (ResearchDocument × Nat)

/-- A fresh empty cache. -/
def emptyCache : Cache := fun _ => none

/-- Model of `_make_key` (`cache.py:38-39`) with the global prefix
`"stk_research"` (`cache.py:95`). -/
def makeKey (key : String) : String := "stk_research:" ++ key

/-- Model of `CacheLayer.get`, memory branch (`cache.py:54-64`): a hit requires
`now < expires_at`; an expired entry is deleted (hence `get` also returns
the possibly-updated cache). -/
def cacheGet (c : Cache) (t : Nat) (key : String) :
    Option ResearchDocument × Cache :=
  let fullKey := makeKey key
  match c fullKey with
  | some (v, expiresAt) =>
    if t < expiresAt then (some v, c)
    else (none, fun k => if k = fullKey then none else c k)
  | none => (none, c)

/-- Model of `CacheLayer.set`, memory branch (`cache.py:78-81`):
`expires_at = now + ttl`. -/
def cacheSet (c : Cache) (t : Nat) (key : String) (v : ResearchDocument) :
    Cache :=
  fun k => if k = makeKey key then some (v, t + ttlSeconds) else c k

/-! ## `researcher.py` -/

/-- Model of `_step_collect_sources` (`researcher.py:91-125`).  The three provider
coroutines run under `asyncio.wait_for(asyncio.gather(...), timeout=25)`;
when the deadline fires (`env.timedOut`), the `asyncio.TimeoutError`
handler at `researcher.py:112-114` assigns `[], [], []` — discarding
every provider's results, completed or not — and the stats are computed
from those empty lists. -/
def collectSources (env : Env) (ticker exchange companyName : String) :
    List RawSource × Stats :=
  let queries := decomposeQueries env.year ticker exchange companyName
  let finnhubNews :=
    if env.timedOut then []
    else fetchFinnhubNews env ticker exchange env.finnhubApiKey
  let ddgResults :=
    if env.timedOut then [] else multiQuerySearch env queries 3
  let edgarResults :=
    if env.timedOut then []
    else if exchange = "NYSE" ∨ exchange = "NASDAQ" then
      fetchSecEdgar env ticker 5
    else []
  let allSources := finnhubNews ++ ddgResults ++ edgarResults
  (allSources,
   { finnhub := finnhubNews.length
     duckduckgo := ddgResults.length
     sec_edgar := edgarResults.length
     total := allSources.length })

/-- Model of `_step_rerank` (`researcher.py:138-143`): fixed query, `top_k = 12`. -/
def stepRerank (env : Env) (chunks : List Chunk) (ticker exchange : String) :
    List Chunk :=
  let query := ticker ++ " " ++ exchange ++ " stock market news earnings catalysts"
  rerankChunks env chunks query ticker 12

/-- Model of `_fallback` (`researcher.py:188-229`): the structured fallback
document. -/
def fallback (env : Env) (ticker exchange : String) : ResearchDocument :=
  { synthesis :=
      "Live research pipeline temporarily unavailable for " ++ ticker
      ++ " (" ++ exchange ++ "). Baseline analysis: monitor upcoming "
      ++ "earnings releases, sector ETF flows, and Fed policy guidance "
      ++ "for near-term catalysts."
    catalysts :=
      [{ catalyst := "Sector momentum — monitor ETF flow data for institutional positioning"
         confidence := 55/100
         source_ids := []
         impact := "neutral" },
       { catalyst := "Earnings season — Q1 results typically drive 5-15% price moves"
         confidence := 60/100
         source_ids := []
         impact := "neutral" }]
    key_metrics :=
      [("status", "fallback_mode"),
       ("data_source", "baseline_market_intelligence")]
    risk_factors :=
      ["Live news feed temporarily unavailable",
       "Analysis based on baseline patterns only"]
    sentiment := "neutral"
    confidence_overall := 45/100
    sources := []
    headlines := []
    ticker := ticker
    exchange := exchange
    research_timestamp := env.nowIso
    pipeline := "fallback" }

/-- Model of `_step_synthesize` (`researcher.py:146-181`): build context and
citation map, call the LLM (modelled as `env.llm` applied to the user
prompt); on a JSON error or exception return `_fallback`, otherwise
attach the metadata to the parsed result. -/
def stepSynthesize (env : Env) (ticker exchange : String)
    (topChunks : List Chunk) : ResearchDocument :=
  let contextText := buildLlmContext topChunks 10000
  let citationMap := buildCitationMap topChunks
  let userPrompt := "Research chunks for " ++ ticker ++ " (" ++ exchange
    ++ "):\n" ++ contextText
  match env.llm userPrompt with
  | .exn => fallback env ticker exchange
  | .jsonError => fallback env ticker exchange
  | .ok r =>
    { synthesis := r.synthesis
      catalysts := r.catalysts
      key_metrics := r.key_metrics
      risk_factors := r.risk_factors
      sentiment := r.sentiment
      confidence_overall := r.confidence_overall
      sources := citationMap
      headlines :=
        ((topChunks.take 5).filter fun c => c.source_title ≠ "").map
          (·.source_title)
      ticker := ticker
      exchange := exchange
      research_timestamp := env.nowIso
      pipeline := "production_v2" }

/-- Model of `ProductionResearchAgent.deep_research_async`
(`researcher.py:251-301`): cache-get, collect, the three early-fallback
guards (no cache write), synthesize, cache-set.  The model is total, so
the final `except Exception` handler has no inhabitant. -/
def deepResearchAsync (env : Env) (t : Nat)
    (ticker exchange companyName : String) (c : Cache) :
    ResearchDocument × Cache :=
  let cacheKey := ticker ++ "_" ++ exchange
  let got := cacheGet c t cacheKey
  match got.1 with
  | some cached => (cached, got.2)
  | none =>
    let sources := (collectSources env ticker exchange companyName).1
    if sources = [] then (fallback env ticker exchange, got.2)
    else
      let enriched := fetchAllParallel env sources
      let chunks := buildChunksFromSources enriched
      if chunks = [] then (fallback env ticker exchange, got.2)
      else
        let topChunks := stepRerank env chunks ticker exchange
        if topChunks = [] then (fallback env ticker exchange, got.2)
        else
          let result := stepSynthesize env ticker exchange topChunks
          (result, cacheSet got.2 t cacheKey result)

/-- One SSE event: its `status` field and, for `cache_hit`/`error`/
`complete` events, the attached document.  Counters and message strings
of the payloads are not modelled. -/
structure Event where
  status : String
  result : Option ResearchDocument := none
deriving DecidableEq

/-- Model of `ProductionResearchAgent.stream_research` (`researcher.py:332-421`):
the same pipeline steps in the same order, emitting events.  Note the
code has no `if not top_chunks` guard here — after reranking it proceeds
straight to synthesis and the cache write. -/
def streamResearch (env : Env) (t : Nat)
    (ticker exchange companyName : String) (c : Cache) :
    List Event × Cache :=
  let cacheKey := ticker ++ "_" ++ exchange
  let got := cacheGet c t cacheKey
  match got.1 with
  | some cached =>
    ([{ status := "cache_hit" }, { status := "complete", result := some cached }],
     got.2)
  | none =>
    let ev0 : List Event :=
      [{ status := "starting" }, { status := "searching" }]
    let sources := (collectSources env ticker exchange companyName).1
    let ev1 := ev0 ++ [{ status := "search_done" }]
    if sources = [] then
      (ev1 ++ [{ status := "error", result := some (fallback env ticker exchange) }],
       got.2)
    else
      let enriched := fetchAllParallel env sources
      let ev2 := ev1 ++ [{ status := "fetching" }, { status := "fetch_done" }]
      let chunks := buildChunksFromSources enriched
      let ev3 := ev2 ++ [{ status := "chunking" }, { status := "chunk_done" }]
      if chunks = [] then
        (ev3 ++ [{ status := "error", result := some (fallback env ticker exchange) }],
         got.2)
      else
        let topChunks := stepRerank env chunks ticker exchange
        let ev4 := ev3 ++ [{ status := "reranking" }, { status := "rerank_done" },
          { status := "synthesizing" }]
        let result := stepSynthesize env ticker exchange topChunks
        (ev4 ++ [{ status := "complete", result := some result }],
         cacheSet got.2 t cacheKey result)

/-! ## Spec-side notions -/

/-- Numeric value of a digit run (most significant first). -/
def digitsToNat (ds : List Char) : Nat :=
  ds.foldl (fun n c => n * 10 + (c.toNat - '0'.toNat)) 0

/-- Scanner worker for `citationMarkers`: a marker starts at a `'['`
immediately followed by one or more digits and a `']'`. -/
def markersAux : List Char → List Nat
  | [] => []
  | c :: rest =>
    let tailMarkers := markersAux rest
    if c = '[' then
      match rest.takeWhile Char.isDigit,
        rest.drop (rest.takeWhile Char.isDigit).length with
      | d :: ds, ']' :: _ => digitsToNat (d :: ds) :: tailMarkers
      | _, _ => tailMarkers
    else tailMarkers

/-- Modelled from the spec: the citation markers `[N]` appearing in a
piece of synthesized text (the spec's "every `[N]` marker appearing in
`synthesis`"); there is no corresponding extraction code in the
repository, which never inspects markers. -/
def citationMarkers (s : String) : List Nat :=
  markersAux s.toList

/-- Total length of a block list (the fetcher's `total` counter tracks
exactly this, `rag_pipeline.py:122,129`). -/
def sumLens (bs : List String) : Nat :=
  (bs.map String.length).sum

/-! ## Concrete fixtures for witnesses and counterexamples -/

/-- A 40-word, 159-character article body (long enough to survive the
`len(content) < 100` and `>= 40` words chunking guards). -/
def sampleContent : String := " ".intercalate (List.replicate 40 "abc")

/-- A well-formed parsed LLM response citing source 1. -/
def sampleParsed : ParsedResult :=
  { synthesis := "Solid quarter [1]."
    catalysts := []
    key_metrics := []
    risk_factors := []
    sentiment := "bullish"
    confidence_overall := 8/10 }

/-- An oracle under which the pipeline reaches synthesis: one Finnhub
article whose summary survives chunking, no other providers, keyword-tier
reranking, and a successfully parsed LLM answer. -/
def sampleEnv : Env :=
  { finnhubApiKey := "k"
    finnhubItems := [{ headline := "Quarterly results",
                       url := "http://example.com/a",
                       summary := sampleContent, datetime := "1" }]
    llm := fun _ => .ok sampleParsed
    year := "2025"
    nowIso := "2025-10-12T00:00:00" }

/-- Finnhub and DuckDuckGo both return the same URL. -/
def dupEnv : Env :=
  { finnhubApiKey := "k"
    finnhubItems := [{ headline := "T1", url := "http://dup.com",
                       summary := "s" }]
    ddgSearch := fun _ _ => [{ title := "T2", href := "http://dup.com",
                               body := "b" }]
    year := "2025" }

/-- The env `dupEnv` with the 25-second aggregate deadline firing after Finnhub
has returned its article. -/
def timeoutEnv : Env := { dupEnv with timedOut := true }

/-- A parsed LLM response citing source id 2 when only source 1 exists. -/
def orphanParsed : ParsedResult :=
  { synthesis := "Strong growth [2] expected"
    catalysts := []
    key_metrics := []
    risk_factors := []
    sentiment := "bullish"
    confidence_overall := 8/10 }

/-- Oracle whose generation call cites a nonexistent source. -/
def orphanEnv : Env := { llm := fun _ => .ok orphanParsed, nowIso := "T" }

/-- A single top chunk with source id 1. -/
def oneChunk : Chunk :=
  { text := "earnings beat", source_id := 1, source_url := "http://x",
    source_title := "t" }

/-- Chunk fixtures for the context-cap counterexample: blocks
`"[1] abc"` (7 chars) and `"[1] a"` (5 chars). -/
def chunkA : Chunk := { text := "abc", source_id := 1 }

/-- Second chunk of the context-cap counterexample. -/
def chunkB : Chunk := { text := "a", source_id := 1 }

/-- Oracle whose cross-encoder hands back the raw logit 5 for the single
chunk (ms-marco cross-encoder outputs are unbounded logits). -/
def logitEnv : Env := { crossEncoder := some [5] }

/-- A source dict with no `url` key at all. -/
def noUrlSource : RawSource := {}

/-- A source whose URL is non-empty but not `http`-schemed, so both fetch
attempts fail and the empty snippet is used. -/
def oddUrlSource : RawSource := { url := some "ftp://example.com/x" }

/-- Oracle with a failing LLM (malformed JSON), otherwise `sampleEnv`. -/
def badJsonEnv : Env := { sampleEnv with llm := fun _ => .jsonError }

/-- Oracle with a failing LLM (raised exception), otherwise `sampleEnv`. -/
def exnEnv : Env := { sampleEnv with llm := fun _ => .exn }

/-! ## Helper lemmas -/

theorem length_insertDesc (x : Chunk) (l : List Chunk) :
    (insertDesc x l).length = l.length + 1 := by
  induction l with
  | nil => rfl
  | cons y ys ih =>
    simp only [insertDesc]
    split <;> simp [ih]

theorem length_sortByScoreDesc (l : List Chunk) :
    (sortByScoreDesc l).length = l.length := by
  induction l with
  | nil => rfl
  | cons x xs ih => simp [sortByScoreDesc, length_insertDesc, ih]

theorem mem_insertDesc {a x : Chunk} {l : List Chunk} :
    a ∈ insertDesc x l ↔ a = x ∨ a ∈ l := by
  induction l with
  | nil => simp [insertDesc]
  | cons y ys ih =>
    simp only [insertDesc]
    split
    · simp [or_comm, or_left_comm]
    · simp [ih, or_comm, or_left_comm]

theorem mem_sortByScoreDesc {a : Chunk} {l : List Chunk} :
    a ∈ sortByScoreDesc l ↔ a ∈ l := by
  induction l with
  | nil => simp [sortByScoreDesc]
  | cons x xs ih => simp [sortByScoreDesc, mem_insertDesc, ih]

theorem pairwise_insertDesc (x : Chunk) (l : List Chunk)
    (h : l.Pairwise fun a b => b.rerank_score ≤ a.rerank_score) :
    (insertDesc x l).Pairwise fun a b => b.rerank_score ≤ a.rerank_score := by
  induction l with
  | nil => simp [insertDesc]
  | cons y ys ih =>
    rw [List.pairwise_cons] at h
    obtain ⟨hy, hys⟩ := h
    simp only [insertDesc]
    split
    · rename_i hle
      refine List.pairwise_cons.mpr ⟨?_, List.pairwise_cons.mpr ⟨hy, hys⟩⟩
      intro z hz
      rcases List.mem_cons.mp hz with rfl | hz'
      · exact hle
      · exact le_trans (hy z hz') hle
    · rename_i hnle
      refine List.pairwise_cons.mpr ⟨?_, ih hys⟩
      intro z hz
      rcases mem_insertDesc.mp hz with rfl | hz'
      · exact le_of_not_le hnle
      · exact hy z hz'

theorem pairwise_sortByScoreDesc (l : List Chunk) :
    (sortByScoreDesc l).Pairwise fun a b => b.rerank_score ≤ a.rerank_score := by
  induction l with
  | nil => simp [sortByScoreDesc]
  | cons x xs ih => exact pairwise_insertDesc x _ ih

/-- On a nonempty chunk list with a positive `top_k`, `rerank_chunks`
never returns the empty list: every tier's result is used only when
nonempty, and the final keyword tier returns `take top_k` of a
length-preserving sort. -/
theorem rerankChunks_ne_nil (env : Env) (chunks : List Chunk)
    (query ticker : String) (topK : Nat) (hc : chunks ≠ [])
    (hk : 0 < topK) : rerankChunks env chunks query ticker topK ≠ [] := by
  unfold rerankChunks
  rw [if_neg hc]
  have hkw : (sortByScoreDesc (chunks.map fun c =>
      { c with rerank_score := keywordScore env.year c.text query ticker })).take
        topK ≠ [] := by
    intro hemp
    rcases List.take_eq_nil_iff.mp hemp with h0 | h0
    · omega
    · have := length_sortByScoreDesc (chunks.map fun c =>
        { c with rerank_score := keywordScore env.year c.text query ticker })
      rw [h0] at this
      simp only [List.length_nil, List.length_map] at this
      exact hc (List.eq_nil_of_length_eq_zero this.symm)
  split
  · simp
  · split
    · simp
    · exact hkw

theorem mem_dedupByUrl {x : RawSource} :
    ∀ (l : List RawSource) (seen : List String), x ∈ dedupByUrl l seen →
      x.url.getD "" ∉ seen ∧ x.url.getD "" ≠ "" := by
  intro l
  induction l with
  | nil => intro seen h; simp [dedupByUrl] at h
  | cons y ys ih =>
    intro seen h
    simp only [dedupByUrl] at h
    split at h
    · rename_i hy
      rcases List.mem_cons.mp h with rfl | h'
      · exact ⟨hy.2, hy.1⟩
      · have := ih _ h'
        exact ⟨fun hs => this.1 (List.mem_cons_of_mem _ hs), this.2⟩
    · exact ih _ h

theorem pairwise_dedupByUrl :
    ∀ (l : List RawSource) (seen : List String),
      (dedupByUrl l seen).Pairwise fun a b =>
        a.url.getD "" ≠ b.url.getD "" := by
  intro l
  induction l with
  | nil => intro seen; simp [dedupByUrl]
  | cons y ys ih =>
    intro seen
    simp only [dedupByUrl]
    split
    · refine List.pairwise_cons.mpr ⟨?_, ih _⟩
      intro z hz
      have := mem_dedupByUrl _ _ hz
      intro heq
      exact this.1 (heq ▸ List.mem_cons_self _ _)
    · exact ih _

theorem find?_dedupByUrl (u : String) (hu : u ≠ "") :
    ∀ (l : List RawSource) (seen : List String), u ∉ seen →
      (dedupByUrl l seen).find? (fun x => x.url.getD "" == u)
        = l.find? (fun x => x.url.getD "" == u) := by
  intro l
  induction l with
  | nil => intro seen _; simp [dedupByUrl]
  | cons y ys ih =>
    intro seen hseen
    by_cases hy : y.url.getD "" = u
    · have hkeep : y.url.getD "" ≠ "" ∧ y.url.getD "" ∉ seen :=
        ⟨hy ▸ hu, hy ▸ hseen⟩
      simp only [dedupByUrl, if_pos hkeep]
      rw [List.find?_cons_of_pos _ (by simp [hy]),
        List.find?_cons_of_pos _ (by simp [hy])]
    · have hbeq : (y.url.getD "" == u) = false := by
        simp [hy]
      rw [List.find?_cons_of_neg _ (by simp [hy])]
      simp only [dedupByUrl]
      split
      · rw [List.find?_cons_of_neg _ (by simp [hy])]
        exact ih _ (by
          intro hmem
          rcases List.mem_cons.mp hmem with heq | hmem'
          · exact hy heq.symm
          · exact hseen hmem')
      · exact ih _ hseen

/-- Membership of a source id among the top chunks guarantees a hit in
the citation map (with any `seen` accumulator not containing the id). -/
theorem lookup_buildCitationMapAux {n : Nat} :
    ∀ (chunks : List Chunk) (seen : List Nat), n ∉ seen →
      n ∈ chunks.map (·.source_id) →
      (List.lookup (toString n) (buildCitationMapAux chunks seen)).isSome := by
  intro chunks
  induction chunks with
  | nil => intro seen _ hmem; simp at hmem
  | cons c rest ih =>
    intro seen hseen hmem
    simp only [buildCitationMapAux]
    split
    · rename_i hin
      have hne : n ≠ c.source_id := fun h => hseen (h ▸ hin)
      have : n ∈ rest.map (·.source_id) := by
        rcases List.mem_map.mp hmem with ⟨x, hx, hxe⟩
        rcases List.mem_cons.mp hx with rfl | hx'
        · exact absurd hxe.symm hne
        · exact List.mem_map.mpr ⟨x, hx', hxe⟩
      exact ih seen hseen this
    · rename_i hnin
      by_cases hbeq : (toString n == toString c.source_id) = true
      · simp [List.lookup, hbeq]
      · have hne : n ≠ c.source_id := by
          intro h; rw [h] at hbeq; simp at hbeq
        have : n ∈ rest.map (·.source_id) := by
          rcases List.mem_map.mp hmem with ⟨x, hx, hxe⟩
          rcases List.mem_cons.mp hx with rfl | hx'
          · exact absurd hxe.symm hne
          · exact List.mem_map.mpr ⟨x, hx', hxe⟩
        have hrec := ih (c.source_id :: seen)
          (by
            intro hmem'
            rcases List.mem_cons.mp hmem' with heq | hmem''
            · exact hne heq
            · exact hseen hmem'')
          this
        simpa [List.lookup, hbeq] using hrec

theorem includedBlocks_sum (l : List Chunk) (m : Nat) :
    ∀ total, total ≤ m → total + sumLens (includedBlocks l m total) ≤ m := by
  induction l with
  | nil => intro total h; simp [includedBlocks, sumLens]; omega
  | cons c rest ih =>
    intro total h
    simp only [includedBlocks]
    split
    · simpa [sumLens]
    · rename_i hle
      have := ih (total + (blockOf c).length) (by omega)
      simp only [sumLens, List.map_cons, List.sum_cons] at *
      omega

theorem includedBlocks_dropsWhole (l : List Chunk) (m : Nat) :
    ∀ total, ∃ rest, l.map blockOf = includedBlocks l m total ++ rest := by
  induction l with
  | nil => intro total; exact ⟨[], by simp [includedBlocks]⟩
  | cons c cs ih =>
    intro total
    simp only [includedBlocks, List.map_cons]
    split
    · exact ⟨blockOf c :: cs.map blockOf, rfl⟩
    · obtain ⟨rest, hrest⟩ := ih (total + (blockOf c).length)
      exact ⟨rest, by simp [hrest]⟩

theorem joinBlocks_length_le :
    ∀ bs : List String, (joinBlocks bs).length ≤ sumLens bs + 2 * bs.length := by
  intro bs
  induction bs with
  | nil => simp [joinBlocks, sumLens]
  | cons b rest ih =>
    cases rest with
    | nil => simp [joinBlocks, sumLens]
    | cons b' rest' =>
      simp only [joinBlocks, String.length_append, sumLens, List.map_cons,
        List.sum_cons, List.length_cons] at *
      have h2 : ("\n\n" : String).length = 2 := rfl
      omega

/-- The score `_keyword_score` always lands in `[0, 1]`: all four summands are
nonnegative and the total is clamped by `min · 1`. -/
theorem keywordScore_mem_unit (year text query ticker : String) :
    0 ≤ keywordScore year text query ticker
      ∧ keywordScore year text query ticker ≤ 1 := by
  unfold keywordScore
  constructor
  · apply le_min _ (by norm_num)
    have h1 : (0:ℚ) ≤ if substrB (lowerStr ticker) (lowerStr text) then 35/100 else 0 := by
      split <;> norm_num
    have h2 : (0:ℚ) ≤ min
        ((((splitWs (lowerStr query)).filter fun term =>
          substrB term (lowerStr text)).length : ℚ)
          / (max (splitWs (lowerStr query)).length 1 : Nat) * (4/10)) (4/10) := by
      apply le_min _ (by norm_num)
      positivity
    have h3 : (0:ℚ) ≤ min
        (((finKeywords.filter fun kw => substrB kw (lowerStr text)).length : ℚ)
          * (5/100)) (2/10) := by
      apply le_min _ (by norm_num)
      positivity
    have h4 : (0:ℚ) ≤ if substrB year text then 5/100 else 0 := by
      split <;> norm_num
    linarith
  · exact min_le_right _ _

/-! ## Claims -/

set_option maxRecDepth 40000 in
/-- C2 (code_bug evidence): when the 25-second aggregate deadline fires
(`timeoutEnv.timedOut`), the Finnhub provider has a completed, nonempty
result list, yet `_step_collect_sources` returns the empty source list
and zeroed stats: the `asyncio.TimeoutError` handler at
`researcher.py:112-114` overwrites every provider's results with `[]`,
discarding completed ones — while its own log line claims to be "using
partial results". -/
theorem collect_timeout_discards_completed :
    fetchFinnhubNews timeoutEnv "NVDA" "NASDAQ" timeoutEnv.finnhubApiKey ≠ []
    ∧ (collectSources timeoutEnv "NVDA" "NASDAQ" "").1 = []
    ∧ (collectSources timeoutEnv "NVDA" "NASDAQ" "").2.total = 0 := by
  decide

set_option maxRecDepth 40000 in
/-- C3 (counterexample): the claim "`_step_collect_sources`'s output
contains at most one Source per URL across all three providers combined"
is false: with Finnhub and DuckDuckGo both returning `http://dup.com`,
the collector's output carries that URL twice — the three provider lists
are simply concatenated (`researcher.py:116`), with no cross-provider
dedup. -/
theorem collect_sources_urls_not_nodup :
    ¬ (((collectSources dupEnv "NVDA" "NASDAQ" "").1.map
      fun s => s.url.getD "").Nodup) := by
  decide

/-- C3 (amended): deduplication by URL happens only inside
`multi_query_search` (`search_sources.py:79-87`), i.e. among the
DuckDuckGo results: its output has pairwise-distinct (truthy) URLs, and
for every URL the entry kept is the first occurrence in query order —
`find?` on the deduplicated list agrees with `find?` on the raw
concatenation of all per-query result lists. -/
theorem multi_query_dedup (env : Env) (queries : List String) (k : Nat) :
    ((multiQuerySearch env queries k).Pairwise fun a b =>
      a.url.getD "" ≠ b.url.getD "")
    ∧ ∀ u : String, u ≠ "" →
        (multiQuerySearch env queries k).find? (fun x => x.url.getD "" == u)
          = (joinedDdg env queries k).find? (fun x => x.url.getD "" == u) := by
  constructor
  · exact pairwise_dedupByUrl _ _
  · intro u hu
    exact find?_dedupByUrl u hu _ [] (by simp)

set_option maxRecDepth 40000 in
/-- C3 (witness): the amended theorem applied to `dupEnv` with the
duplicated URL. -/
theorem multi_query_dedup_witness :
    (multiQuerySearch dupEnv ["q"] 3).find?
        (fun x => x.url.getD "" == "http://dup.com")
      = (joinedDdg dupEnv ["q"] 3).find?
        (fun x => x.url.getD "" == "http://dup.com") :=
  (multi_query_dedup dupEnv ["q"] 3).2 "http://dup.com" (by decide)

set_option maxRecDepth 10000 in
/-- C5 (counterexample): the claim "every element returned by
`fetch_all_parallel` has a string `content` field for all five
`fetch_status` outcomes including `no_url`" is false: for a source with
no URL, `bounded_fetch` (`content_fetcher.py:103-105`) sets only
`fetch_status` and returns — the `content` key stays absent. -/
theorem fetch_no_url_content_absent :
    (fetchAllParallel logitEnv [noUrlSource]).map (fun s => s.content) = [none]
    ∧ (fetchAllParallel logitEnv [noUrlSource]).map (fun s => s.fetch_status)
      = [some "no_url"] := by
  decide

/-- C5 (amended): every element returned by `fetch_all_parallel` carries
a `fetch_status`, and for the four outcomes other than `no_url`
(`success`, `pre_filled`, `snippet_only`, `failed`) its `content` is a
present (possibly empty) string; a source whose URL is missing or empty
is returned with `fetch_status = "no_url"` and everything else — in
particular `content` — exactly as it came in. -/
theorem fetch_content_total (env : Env) (sources : List RawSource) :
    (∀ s' ∈ fetchAllParallel env sources,
      s'.fetch_status.isSome
      ∧ (s'.fetch_status ≠ some "no_url" → s'.content.isSome))
    ∧ ∀ s ∈ sources, s.url.getD "" = "" →
        boundedFetch env s = { s with fetch_status := some "no_url" } := by
  constructor
  · intro s' hs'
    rcases List.mem_map.mp hs' with ⟨s, _, rfl⟩
    unfold boundedFetch
    by_cases hurl : s.url.getD "" = ""
    · simp [hurl]
    · rw [if_neg hurl]
      by_cases hpre : 200 < (s.content.getD "").length
      · rw [if_pos hpre]
        refine ⟨by simp, fun _ => ?_⟩
        cases hcon : s.content with
        | none => rw [hcon] at hpre; simp at hpre
        | some c => simp
      · rw [if_neg hpre]
        cases hfetch : fetchSingle env (s.url.getD "") with
        | none => simp
        | some c =>
          by_cases hc : c ≠ ""
          · simp [hc]
          · simp [hc]
  · intro s _ hurl
    unfold boundedFetch
    rw [if_pos hurl]

set_option maxRecDepth 10000 in
/-- C5 (witness): the amended theorem evaluated on a non-`http` URL —
content degrades to the (empty) snippet string, still present. -/
theorem fetch_content_total_witness :
    (boundedFetch logitEnv oddUrlSource).content.isSome :=
  ((fetch_content_total logitEnv [oddUrlSource]).1
    (boundedFetch logitEnv oddUrlSource) (by decide)).2 (by decide)

set_option maxRecDepth 10000 in
/-- C6 (counterexample): the claim "the string returned by
`build_llm_context` has length at most `max_chars`" is false: the `total`
counter (`rag_pipeline.py:122-129`) sums only the block lengths, but the
return value joins the blocks with `"\n\n"`; with blocks of lengths 7 and
5 under `max_chars = 12`, the result has length 14. -/
theorem build_llm_context_exceeds_cap :
    (buildLlmContext [chunkA, chunkB] 12).length = 14
    ∧ ¬ ((buildLlmContext [chunkA, chunkB] 12).length ≤ 12) := by
  decide

/-- C6 (amended): `build_llm_context` appends `[source_id] text[:600]`
blocks in the given order; the total length of the blocks included is at
most `max_chars`, and once a block would push that total past the cap all
later chunks are dropped wholesale (the included blocks form a prefix of
the full block sequence — earlier blocks are never truncated).  The
returned string joins the blocks with two-character separators and can
therefore exceed `max_chars` by at most `2·(number of blocks)`. -/
theorem build_llm_context_cap (chunks : List Chunk) (maxChars : Nat) :
    sumLens (includedBlocks chunks maxChars 0) ≤ maxChars
    ∧ (∃ rest, chunks.map blockOf = includedBlocks chunks maxChars 0 ++ rest)
    ∧ (buildLlmContext chunks maxChars).length
        ≤ maxChars + 2 * (includedBlocks chunks maxChars 0).length := by
  refine ⟨?_, includedBlocks_dropsWhole chunks maxChars 0, ?_⟩
  · simpa using includedBlocks_sum chunks maxChars 0 (Nat.zero_le _)
  · have h1 := joinBlocks_length_le (includedBlocks chunks maxChars 0)
    have h2 := includedBlocks_sum chunks maxChars 0 (Nat.zero_le _)
    unfold buildLlmContext
    omega

set_option maxRecDepth 10000 in
/-- C7 (counterexample): the claim "every chunk returned by
`rerank_chunks` carries a `rerank_score` in `[0,1]`, whichever of the
three tiers produced the scores" is false: `_rerank_with_cross_encoder`
(`reranker.py:131-132`) stores the raw `model.predict` outputs — logits,
unbounded — without clamping; a logit of 5 flows through unchanged. -/
theorem rerank_cross_encoder_score_unbounded :
    (rerankChunks logitEnv [oneChunk] "q" "NVDA" 12).map
        (fun c => c.rerank_score) = [5]
    ∧ ¬ ((5:ℚ) ≤ 1) := by
  refine ⟨by decide, by norm_num⟩

/-- C7 (amended): `rerank_chunks` returns at most `top_k` chunks sorted
in descending `rerank_score` order in the cross-encoder and keyword tiers
(the Cohere tier trusts the API's order and count); scores are guaranteed
to lie in `[0,1]` only when the keyword tier produced them — the Cohere
and cross-encoder tiers pass backend scores through unclamped. -/
theorem rerank_tiers_props (env : Env) (chunks : List Chunk)
    (query ticker : String) (topK : Nat) (hkey : env.cohereApiKey = "") :
    (rerankChunks env chunks query ticker topK).length ≤ topK
    ∧ ((rerankChunks env chunks query ticker topK).Pairwise fun a b =>
        b.rerank_score ≤ a.rerank_score)
    ∧ (env.crossEncoder = none →
        ∀ c ∈ rerankChunks env chunks query ticker topK,
          0 ≤ c.rerank_score ∧ c.rerank_score ≤ 1) := by
  have hkwlen : ∀ l : List Chunk, ((sortByScoreDesc l).take topK).length ≤ topK :=
    fun l => List.length_take_le topK (sortByScoreDesc l)
  have hkwsort : ∀ l : List Chunk,
      (((sortByScoreDesc l).take topK).Pairwise fun a b =>
        b.rerank_score ≤ a.rerank_score) :=
    fun l => (pairwise_sortByScoreDesc l).sublist (List.take_sublist _ _)
  have hkwunit : ∀ c ∈ (sortByScoreDesc (chunks.map fun c =>
      { c with rerank_score := keywordScore env.year c.text query ticker })).take
        topK, 0 ≤ c.rerank_score ∧ c.rerank_score ≤ 1 := by
    intro c hc
    have hmem := mem_sortByScoreDesc.mp (List.mem_of_mem_take hc)
    rcases List.mem_map.mp hmem with ⟨c', _, rfl⟩
    exact keywordScore_mem_unit env.year c'.text query ticker
  by_cases hchunks : chunks = []
  · have hre : rerankChunks env chunks query ticker topK = [] := by
      unfold rerankChunks
      rw [if_pos hchunks]
    rw [hre]
    exact ⟨by simp, by simp, fun _ c hc => absurd hc (by simp)⟩
  · have hco : rerankWithCohere env chunks topK = none := by
      unfold rerankWithCohere
      rw [if_pos hkey]
    cases hce : env.crossEncoder with
    | none =>
      have hcr : rerankWithCrossEncoder env chunks topK = none := by
        unfold rerankWithCrossEncoder
        rw [hce]
      have hre : rerankChunks env chunks query ticker topK
          = (sortByScoreDesc (chunks.map fun c =>
              { c with
                rerank_score := keywordScore env.year c.text query ticker })).take
                  topK := by
        unfold rerankChunks
        rw [if_neg hchunks, hco, hcr]
      rw [hre]
      exact ⟨hkwlen _, hkwsort _, fun _ => hkwunit⟩
    | some scores =>
      have hcr : rerankWithCrossEncoder env chunks topK
          = some ((sortByScoreDesc (((chunks.zip scores).map fun p =>
              { p.1 with rerank_score := p.2 }) ++ chunks.drop scores.length)).take
                topK) := by
        unfold rerankWithCrossEncoder
        rw [hce]
      cases htake : (sortByScoreDesc (((chunks.zip scores).map fun p =>
          { p.1 with rerank_score := p.2 }) ++ chunks.drop scores.length)).take
            topK with
      | nil =>
        have hre : rerankChunks env chunks query ticker topK
            = (sortByScoreDesc (chunks.map fun c =>
                { c with
                  rerank_score := keywordScore env.year c.text query ticker })).take
                    topK := by
          unfold rerankChunks
          rw [if_neg hchunks, hco, hcr, htake]
        rw [hre]
        exact ⟨hkwlen _, hkwsort _, fun h => absurd h (by simp)⟩
      | cons c cs =>
        have hre : rerankChunks env chunks query ticker topK = c :: cs := by
          unfold rerankChunks
          rw [if_neg hchunks, hco, hcr, htake]
        rw [hre, ← htake]
        exact ⟨hkwlen _, hkwsort _, fun h => absurd h (by simp)⟩

set_option maxRecDepth 10000 in
/-- C7 (witness): the amended theorem on the keyword tier (no Cohere key,
no cross-encoder). -/
theorem rerank_tiers_props_witness :
    (rerankChunks { llm := fun _ => .exn : Env } [oneChunk] "q" "NVDA" 12).length
      ≤ 12 :=
  (rerank_tiers_props { llm := fun _ => .exn : Env } [oneChunk] "q" "NVDA" 12
    rfl).1

set_option maxRecDepth 40000 in
/-- C4 (counterexample): the claim "no orphan citations can appear in a
returned document, regardless of what the generation call outputs" is
false: `_step_synthesize` attaches the citation map without checking the
generated text (`researcher.py:171-181`); with a well-formed LLM answer
citing `[2]` over a single source `1`, the returned document's synthesis
carries marker 2 but its `sources` map has no key `"2"`. -/
theorem synthesized_document_orphan_citation :
    citationMarkers
        (stepSynthesize orphanEnv "NVDA" "NASDAQ" [oneChunk]).synthesis = [2]
    ∧ (List.lookup "2"
        (stepSynthesize orphanEnv "NVDA" "NASDAQ" [oneChunk]).sources).isNone := by
  decide

/-- C4 (amended): the citation map attached by `_step_synthesize` covers
exactly the source ids of the top chunks, so a marker `[N]` in the
returned synthesis has a matching key in `sources` whenever the
generation output only cites ids occurring among the top chunks; the code
itself never validates the markers, so ids outside that set survive as
orphans. -/
theorem synthesize_citations_cover (env : Env) (tk ex : String)
    (topChunks : List Chunk) (r : ParsedResult)
    (hllm : env.llm = fun _ => LlmOutcome.ok r)
    (hm : ∀ n ∈ citationMarkers r.synthesis,
      n ∈ topChunks.map (·.source_id)) :
    ∀ n ∈ citationMarkers (stepSynthesize env tk ex topChunks).synthesis,
      (List.lookup (toString n)
        (stepSynthesize env tk ex topChunks).sources).isSome := by
  have hdoc : (stepSynthesize env tk ex topChunks).synthesis = r.synthesis
      ∧ (stepSynthesize env tk ex topChunks).sources
        = buildCitationMap topChunks := by
    unfold stepSynthesize
    rw [hllm]
    exact ⟨rfl, rfl⟩
  rw [hdoc.1, hdoc.2]
  intro n hn
  exact lookup_buildCitationMapAux topChunks [] (by simp) (hm n hn)

set_option maxRecDepth 40000 in
/-- C4 (witness): a generation output citing only the existing source 1
resolves in the returned document's citation map. -/
theorem synthesize_citations_cover_witness :
    (List.lookup "1"
      (stepSynthesize sampleEnv "NVDA" "NASDAQ" [oneChunk]).sources).isSome :=
  synthesize_citations_cover sampleEnv "NVDA" "NASDAQ" [oneChunk] sampleParsed
    rfl (by decide) 1 (by decide)

/-- The fallback synthesis text is never empty: it starts with a fixed
51-character preamble. -/
theorem fallback_synthesis_ne_empty (env : Env) (tk ex : String) :
    (fallback env tk ex).synthesis ≠ "" := by
  intro h
  have hlen := congrArg String.length h
  simp only [fallback, String.length_append] at hlen
  have h51 :
      ("Live research pipeline temporarily unavailable for " : String).length
        = 51 := rfl
  have h0 : ("" : String).length = 0 := rfl
  omega

/-- C8: on a cache miss, if the Source Collector discovers zero sources,
`deep_research_async` returns the `_fallback` document without writing
the cache; the fallback document has `confidence_overall = 0.45 < 0.5`,
an empty `sources` map, `pipeline = "fallback"`, and every required field
populated (nonempty synthesis, two catalysts, two risk factors, populated
key metrics, neutral sentiment). -/
theorem zero_sources_fallback (env : Env) (t : Nat) (tk ex cn : String)
    (hs : (collectSources env tk ex cn).1 = []) :
    (deepResearchAsync env t tk ex cn emptyCache).1 = fallback env tk ex
    ∧ (deepResearchAsync env t tk ex cn emptyCache).2 = emptyCache
    ∧ (fallback env tk ex).confidence_overall < 1/2
    ∧ (fallback env tk ex).sources = []
    ∧ (fallback env tk ex).pipeline = "fallback"
    ∧ (fallback env tk ex).sentiment = "neutral"
    ∧ (fallback env tk ex).catalysts ≠ []
    ∧ (fallback env tk ex).risk_factors ≠ []
    ∧ (fallback env tk ex).key_metrics ≠ []
    ∧ (fallback env tk ex).synthesis ≠ "" := by
  have hrun : deepResearchAsync env t tk ex cn emptyCache
      = (fallback env tk ex, emptyCache) := by
    have hget : cacheGet emptyCache t (tk ++ "_" ++ ex) = (none, emptyCache) :=
      rfl
    simp only [deepResearchAsync, hget, hs, if_true]
  refine ⟨by rw [hrun], by rw [hrun], by norm_num [fallback], by simp [fallback],
    by simp [fallback], by simp [fallback], by simp [fallback],
    by simp [fallback], by simp [fallback], fallback_synthesis_ne_empty env tk ex⟩

set_option maxRecDepth 40000 in
/-- C8 (witness): the zero-source run obtained from the collection
timeout. -/
theorem zero_sources_fallback_witness :
    (deepResearchAsync timeoutEnv 0 "NVDA" "NASDAQ" "" emptyCache).1
      = fallback timeoutEnv "NVDA" "NASDAQ" :=
  (zero_sources_fallback timeoutEnv 0 "NVDA" "NASDAQ" "" (by decide)).1

/-- C1: starting from an empty shared cache, the terminal event of
`stream_research` carries exactly the document `deep_research_async`
returns for the same oracle, and both leave the cache in the same state
(same single write, or none): the two entry points drive the same stage
functions in the same order.  (The only structural difference — the
missing `if not top_chunks` guard in `stream_research` — is unreachable,
since `rerank_chunks` never returns an empty list for nonempty input.) -/
theorem stream_refines_deep (env : Env) (t : Nat) (tk ex cn : String) :
    (((streamResearch env t tk ex cn emptyCache).1.getLast?).bind Event.result)
      = some (deepResearchAsync env t tk ex cn emptyCache).1
    ∧ (streamResearch env t tk ex cn emptyCache).2
      = (deepResearchAsync env t tk ex cn emptyCache).2 := by
  have hget : cacheGet emptyCache t (tk ++ "_" ++ ex) = (none, emptyCache) :=
    rfl
  by_cases hs : (collectSources env tk ex cn).1 = []
  · constructor
    · simp [streamResearch, deepResearchAsync, hget, hs]
    · simp [streamResearch, deepResearchAsync, hget, hs]
  · by_cases hc : buildChunksFromSources
        (fetchAllParallel env (collectSources env tk ex cn).1) = []
    · constructor
      · simp [streamResearch, deepResearchAsync, hget, hs, hc]
      · simp [streamResearch, deepResearchAsync, hget, hs, hc]
    · have htop : stepRerank env
          (buildChunksFromSources
            (fetchAllParallel env (collectSources env tk ex cn).1)) tk ex
            ≠ [] := by
        unfold stepRerank
        exact rerankChunks_ne_nil env _ _ tk 12 hc (by norm_num)
      constructor
      · simp [streamResearch, deepResearchAsync, hget, hs, hc, htop]
      · simp [streamResearch, deepResearchAsync, hget, hs, hc, htop]

/-- C9: idempotence within the TTL window.  If the first invocation (from
an empty cache) reaches the synthesis stage — nonempty sources and
nonempty chunks, whence nonempty reranked chunks — it stores its document
under `"<ticker>_<exchange>"`; a second invocation at any time strictly
before `t₁ + 30·60` seconds consults the cache before running any stage
and returns the stored document unchanged (same timestamp, same pipeline
mode — it is the identical value), leaving the cache untouched. -/
theorem deep_research_cache_idempotent (env : Env) (t1 t2 : Nat)
    (tk ex cn : String)
    (hs : (collectSources env tk ex cn).1 ≠ [])
    (hc : buildChunksFromSources
      (fetchAllParallel env (collectSources env tk ex cn).1) ≠ [])
    (ht : t2 < t1 + ttlSeconds) :
    deepResearchAsync env t2 tk ex cn
        (deepResearchAsync env t1 tk ex cn emptyCache).2
      = ((deepResearchAsync env t1 tk ex cn emptyCache).1,
         (deepResearchAsync env t1 tk ex cn emptyCache).2) := by
  have hget : cacheGet emptyCache t1 (tk ++ "_" ++ ex) = (none, emptyCache) :=
    rfl
  have htop : stepRerank env
      (buildChunksFromSources
        (fetchAllParallel env (collectSources env tk ex cn).1)) tk ex ≠ [] := by
    unfold stepRerank
    exact rerankChunks_ne_nil env _ _ tk 12 hc (by norm_num)
  have h1 : deepResearchAsync env t1 tk ex cn emptyCache
      = (stepSynthesize env tk ex
          (stepRerank env
            (buildChunksFromSources
              (fetchAllParallel env (collectSources env tk ex cn).1)) tk ex),
         cacheSet emptyCache t1 (tk ++ "_" ++ ex)
          (stepSynthesize env tk ex
            (stepRerank env
              (buildChunksFromSources
                (fetchAllParallel env (collectSources env tk ex cn).1)) tk ex))) := by
    simp only [deepResearchAsync, hget, hs, hc, htop, if_neg, if_false]
  rw [h1]
  have hhit : cacheGet
      (cacheSet emptyCache t1 (tk ++ "_" ++ ex)
        (stepSynthesize env tk ex
          (stepRerank env
            (buildChunksFromSources
              (fetchAllParallel env (collectSources env tk ex cn).1)) tk ex)))
      t2 (tk ++ "_" ++ ex)
      = (some (stepSynthesize env tk ex
          (stepRerank env
            (buildChunksFromSources
              (fetchAllParallel env (collectSources env tk ex cn).1)) tk ex)),
         cacheSet emptyCache t1 (tk ++ "_" ++ ex)
          (stepSynthesize env tk ex
            (stepRerank env
              (buildChunksFromSources
                (fetchAllParallel env (collectSources env tk ex cn).1)) tk ex))) := by
    unfold cacheGet cacheSet
    simp [ht]
  simp only [deepResearchAsync, hhit]

set_option maxRecDepth 100000 in
/-- C9 (witness): a run of `sampleEnv` reaches synthesis; a second call
ten seconds later returns the very same pair.  The hypotheses are
discharged by evaluation. -/
theorem deep_research_cache_idempotent_witness :
    deepResearchAsync sampleEnv 10 "NVDA" "NYSE" ""
        (deepResearchAsync sampleEnv 0 "NVDA" "NYSE" "" emptyCache).2
      = ((deepResearchAsync sampleEnv 0 "NVDA" "NYSE" "" emptyCache).1,
         (deepResearchAsync sampleEnv 0 "NVDA" "NYSE" "" emptyCache).2) :=
  deep_research_cache_idempotent sampleEnv 0 10 "NVDA" "NYSE" ""
    (by decide) (by decide) (by decide)

/-- C10: a synthesis-stage failure (malformed JSON or a generation-call
exception) makes `_step_synthesize` return the `_fallback` document,
which `deep_research_async` then writes to the cache under the run's key
with a 30-minute expiry, and which is served as a cache hit to any caller
within the TTL; by contrast, the fallback documents produced for zero
sources, zero chunks, or zero reranked chunks are returned from branches
that precede the `cache.set`, so they leave the cache untouched. -/
theorem synthesis_failure_fallback_cached (env : Env) (t1 t2 : Nat)
    (tk ex cn : String)
    (hllm : env.llm = (fun _ => LlmOutcome.jsonError)
      ∨ env.llm = (fun _ => LlmOutcome.exn))
    (hs : (collectSources env tk ex cn).1 ≠ [])
    (hc : buildChunksFromSources
      (fetchAllParallel env (collectSources env tk ex cn).1) ≠ [])
    (ht : t2 < t1 + ttlSeconds) :
    (deepResearchAsync env t1 tk ex cn emptyCache).1 = fallback env tk ex
    ∧ (deepResearchAsync env t1 tk ex cn emptyCache).2
        (makeKey (tk ++ "_" ++ ex))
        = some (fallback env tk ex, t1 + ttlSeconds)
    ∧ (deepResearchAsync env t2 tk ex cn
        (deepResearchAsync env t1 tk ex cn emptyCache).2).1
        = fallback env tk ex
    ∧ ∀ (env2 : Env) (t3 : Nat),
        ((collectSources env2 tk ex cn).1 = []
          ∨ buildChunksFromSources
              (fetchAllParallel env2 (collectSources env2 tk ex cn).1) = []
          ∨ stepRerank env2
              (buildChunksFromSources
                (fetchAllParallel env2 (collectSources env2 tk ex cn).1))
              tk ex = []) →
        (deepResearchAsync env2 t3 tk ex cn emptyCache).2 = emptyCache := by
  have hget : cacheGet emptyCache t1 (tk ++ "_" ++ ex) = (none, emptyCache) :=
    rfl
  have htop : stepRerank env
      (buildChunksFromSources
        (fetchAllParallel env (collectSources env tk ex cn).1)) tk ex ≠ [] := by
    unfold stepRerank
    exact rerankChunks_ne_nil env _ _ tk 12 hc (by norm_num)
  have hsynth : stepSynthesize env tk ex
      (stepRerank env
        (buildChunksFromSources
          (fetchAllParallel env (collectSources env tk ex cn).1)) tk ex)
      = fallback env tk ex := by
    rcases hllm with h | h <;>
      · unfold stepSynthesize
        rw [h]
  have h1 : deepResearchAsync env t1 tk ex cn emptyCache
      = (fallback env tk ex,
         cacheSet emptyCache t1 (tk ++ "_" ++ ex) (fallback env tk ex)) := by
    simp only [deepResearchAsync, hget, hs, hc, htop, if_neg, if_false, hsynth]
  refine ⟨by rw [h1], ?_, ?_, ?_⟩
  · rw [h1]
    unfold cacheSet
    simp
  · rw [h1]
    have hhit : cacheGet
        (cacheSet emptyCache t1 (tk ++ "_" ++ ex) (fallback env tk ex)) t2
        (tk ++ "_" ++ ex)
        = (some (fallback env tk ex),
           cacheSet emptyCache t1 (tk ++ "_" ++ ex) (fallback env tk ex)) := by
      unfold cacheGet cacheSet
      simp [ht]
    simp only [deepResearchAsync, hhit]
  · intro env2 t3 hdisj
    have hget3 : cacheGet emptyCache t3 (tk ++ "_" ++ ex) = (none, emptyCache) :=
      rfl
    rcases hdisj with h0 | h0 | h0
    · simp only [deepResearchAsync, hget3, h0, if_true]
    · by_cases hs2 : (collectSources env2 tk ex cn).1 = []
      · simp only [deepResearchAsync, hget3, hs2, if_true]
      · simp only [deepResearchAsync, hget3, hs2, h0, if_neg, if_false, if_true]
    · by_cases hs2 : (collectSources env2 tk ex cn).1 = []
      · simp only [deepResearchAsync, hget3, hs2, if_true]
      · by_cases hc2 : buildChunksFromSources
            (fetchAllParallel env2 (collectSources env2 tk ex cn).1) = []
        · simp only [deepResearchAsync, hget3, hs2, hc2, if_neg, if_false, if_true]
        · simp only [deepResearchAsync, hget3, hs2, hc2, h0, if_neg, if_false,
            if_true]

set_option maxRecDepth 100000 in
/-- C10 (witness): both failure modes concretely — `badJsonEnv`
(malformed JSON) and `exnEnv` (generation-call exception) reach synthesis
and fail there; each run returns the fallback document. -/
theorem synthesis_failure_fallback_cached_witness :
    (deepResearchAsync badJsonEnv 0 "NVDA" "NYSE" "" emptyCache).1
      = fallback badJsonEnv "NVDA" "NYSE"
    ∧ (deepResearchAsync exnEnv 0 "NVDA" "NYSE" "" emptyCache).1
      = fallback exnEnv "NVDA" "NYSE" :=
  ⟨(synthesis_failure_fallback_cached badJsonEnv 0 10 "NVDA" "NYSE" ""
      (Or.inl rfl) (by decide) (by decide) (by decide)).1,
   (synthesis_failure_fallback_cached exnEnv 0 10 "NVDA" "NYSE" ""
      (Or.inr rfl) (by decide) (by decide) (by decide)).1⟩

end StockAI
